import Mathlib

/-!
Shallow embedding of `smonad.retry` (src/smonad/retry.py) and the behavior it
exhibits under the deterministic `StoppedClock` test double, together with
proofs of the specification's claims about the retry engine.

Modelling conventions:
* Timestamps are integers (`Int`); the clock is the list of values that
  successive `StoppedClock.time()` calls return, an entry being a plain value,
  a value paired with a side-effecting function, or a value paired with an
  exception to raise.
* The wrapped operation is a function from the invocation index (0-based) to
  the `Result` it returns on that invocation; deterministic side effects of
  the clock on the operation's state are absorbed into that function.
* Writes to the standard output and standard error streams are collected in a
  list of `OutEvent`s; `sleep` has no observable effect.
* Python exceptions escaping `f_retry` are modelled with `Except`:
  `StopIteration` (clock list exhausted), an injected clock exception, and the
  `UnboundLocalError` raised when `result` is read without the loop body ever
  having run.
* String payloads are modelled as templates made of literal pieces and the
  `{total_time}` / `{retries}` placeholders, which is the payload shape the
  module's formatting supports; payloads without a `format` method are
  `Payload.other`.
-/

namespace Smonad

/-- Exceptions that can escape the retry engine. -/
inductive Exn where
  | stopIteration : Exn
  | raised : Nat → Exn
  | unboundLocal : Exn
deriving DecidableEq, Repr

/-- One piece of a message-payload template: literal text, the
`{total_time}` placeholder, or the `{retries}` placeholder. -/
inductive Piece where
  | lit : String → Piece
  | total_time : Piece
  | retries : Piece
deriving DecidableEq, Repr

/-- A message payload template, as fed to Python's `str.format`. -/
abbrev Template := List Piece

/-- `tpl.format(total_time=..., retries=...)` for a template string. -/
def formatTemplate (tpl : Template) (total_time : Int) (retries : Nat) : String :=
  String.join (tpl.map fun p =>
    match p with
    | Piece.lit s => s
    | Piece.total_time => toString total_time
    | Piece.retries => toString retries)

/-- A result's message payload: a formattable string (`Payload.str`) or any
value without a `format` method (`Payload.other`). -/
inductive Payload where
  | str : Template → Payload
  | other : Payload
deriving DecidableEq, Repr

/-- Modelled from the spec: `Success` and `Failure` come from
`smonad.types.ftry`, which is not under `src/`; per the spec they form, with
`NotReady` (declared in `retry.py` as a subclass of `Failure`), a three-variant
tagged union carrying a message payload.  Following the spec's design note, the
subclass hierarchy is modelled as a tagged enumeration plus explicit
classification functions. -/
inductive Result where
  | Success : Payload → Result
  | Failure : Payload → Result
  | NotReady : Payload → Result
deriving DecidableEq, Repr

/-- The `.value` attribute: the message payload carried by a result. -/
def Result.value : Result → Payload
  | Result.Success v => v
  | Result.Failure v => v
  | Result.NotReady v => v

/-- `isinstance(r, NotReady)`. -/
def isNotReady : Result → Bool
  | Result.NotReady _ => true
  | _ => false

/-- `isinstance(r, Failure)`: true for `Failure` and its subclass `NotReady`. -/
def isFailureInstance : Result → Bool
  | Result.Failure _ => true
  | Result.NotReady _ => true
  | _ => false

/-- Modelled from the spec: `succeeded` lives in `smonad.utils`, which is not
under `src/`; the spec says the classification predicate `isSuccess(r)` is true
only for the Success variant. -/
def succeeded : Result → Bool
  | Result.Success _ => true
  | _ => false

/-- A write to standard output (`out`) or standard error (`errc`). -/
inductive OutEvent where
  | out : String → OutEvent
  | errc : String → OutEvent
deriving DecidableEq, Repr

/-- Modelled from the spec: `print_now` lives in `smonad.utils`, which is not
under `src/`; per the spec's reporter description it emits the message to the
standard output channel, or to the error channel when `err` is true. -/
def print_now (msg : String) (err : Bool) : List OutEvent :=
  if err then [OutEvent.errc msg] else [OutEvent.out msg]

/-- One piece of a start-message template: literal text or the
`{start_time}` placeholder. -/
inductive SPiece where
  | lit : String → SPiece
  | start_time : SPiece
deriving DecidableEq, Repr

/-- A start-message template string. -/
abbrev StartTemplate := List SPiece

/-- The start-message template rendered with `start_time` substituted. -/
def formatStartTemplate (tpl : StartTemplate) (start_time : Int) : String :=
  String.join (tpl.map fun p =>
    match p with
    | SPiece.lit s => s
    | SPiece.start_time => toString start_time)

/-- The start-message template printed verbatim, placeholder unsubstituted. -/
def renderStartRaw (tpl : StartTemplate) : String :=
  String.join (tpl.map fun p =>
    match p with
    | SPiece.lit s => s
    | SPiece.start_time => "{start_time}")

/-- `print_start_message`: interpolates `start_time` when the `{start_time}`
placeholder occurs in the message, otherwise prints the message verbatim. -/
def print_start_message (start_message : StartTemplate) (start_time : Int) :
    List OutEvent :=
  if SPiece.start_time ∈ start_message then
    print_now (formatStartTemplate start_message start_time) false
  else
    print_now (renderStartRaw start_message) false

/-- `print_end_message`: a newline on stdout, then — only for payloads with a
`format` method — the formatted payload on stdout for Success, on stderr with
the `"  Giving up."` suffix for NotReady, and on stderr unsuffixed for a plain
Failure. -/
def print_end_message (result : Result) (total_time : Int) (retry_count : Nat) :
    List OutEvent :=
  OutEvent.out "\n" ::
    (match result.value with
     | Payload.other => []
     | Payload.str tpl =>
       if succeeded result then
         print_now (formatTemplate tpl total_time retry_count) false
       else if isNotReady result then
         print_now (formatTemplate tpl total_time retry_count ++ "  Giving up.") true
       else
         print_now (formatTemplate tpl total_time retry_count) true)

/-- One entry of a `StoppedClock`'s time list: a plain timestamp, a timestamp
with a side-effecting function (the side effect on the operation's state is
absorbed into the operation function), or a timestamp paired with an exception
that `time()` raises instead of returning. -/
inductive ClockEntry where
  | val : Int → ClockEntry
  | eff : Int → ClockEntry
  | exn : Int → Nat → ClockEntry
deriving DecidableEq, Repr

/-- `StoppedClock.time()`: pop the next entry; an exhausted iterator raises
`StopIteration`, an exception entry raises the injected exception, a
side-effect entry runs the effect and returns its value. -/
def StoppedClock.time :
    List ClockEntry → Except Exn (Int × List ClockEntry)
  | [] => Except.error Exn.stopIteration
  | ClockEntry.val t :: rest => Except.ok (t, rest)
  | ClockEntry.eff t :: rest => Except.ok (t, rest)
  | ClockEntry.exn _ e :: _ => Except.error (Exn.raised e)

/-- The progress output of one NotReady iteration whose incremented tick count
is `tick_count`: nothing when silent, otherwise a `.` marker and, after every
80th tick, a newline. -/
def tickMark (silent : Bool) (tick_count : Nat) : List OutEvent :=
  if silent then []
  else OutEvent.out "." ::
    (if tick_count % 80 == 0 then [OutEvent.out "\n"] else [])

/-- The observable outcome of one `f_retry` call: the returned `Result`, the
final tick count, the total elapsed time and final clock sample reported to the
end message, and the stream output. -/
structure RunResult where
  result : Result
  attempts : Nat
  totalTime : Int
  currentTime : Int
  output : List OutEvent
deriving DecidableEq, Repr

/-- The result of exiting the loop with the condition false: the last obtained
result, or Python's `UnboundLocalError` when the body never ran and `result`
is read unassigned after the loop. -/
def loopExit (lastResult : Option Result) (tick_count : Nat) (current_time : Int)
    (out : List OutEvent) : Except Exn (Result × Nat × Int × List OutEvent) :=
  match lastResult with
  | some r => Except.ok (r, tick_count, current_time, out)
  | none => Except.error Exn.unboundLocal

/-- The `while current_time < deadline` loop of `f_retry`.  Each iteration
invokes the operation, increments the tick counter, and either breaks (Success
or plain Failure) or emits a progress mark, sleeps, and resamples the clock
(NotReady).  For structural recursion the case analysis that
`StoppedClock.time` performs on the head clock entry is fused into the loop's
pattern matching: an exhausted iterator raises `StopIteration`, an exception
entry raises its injected exception, value and side-effect entries yield the
next `current_time` for the following condition check. -/
def retryLoop (callable_object : Nat → Result) (deadline delay : Int)
    (silent : Bool) : List ClockEntry → Nat → Int → Option Result →
    List OutEvent → Except Exn (Result × Nat × Int × List OutEvent)
  | [], tick_count, current_time, lastResult, out =>
    if current_time < deadline then
      let result := callable_object tick_count
      let tc := tick_count + 1
      if isNotReady result then Except.error Exn.stopIteration
      else Except.ok (result, tc, current_time, out)
    else loopExit lastResult tick_count current_time out
  | ClockEntry.val t :: rest, tick_count, current_time, lastResult, out =>
    if current_time < deadline then
      let result := callable_object tick_count
      let tc := tick_count + 1
      if isNotReady result then
        retryLoop callable_object deadline delay silent rest tc t (some result)
          (out ++ tickMark silent tc)
      else Except.ok (result, tc, current_time, out)
    else loopExit lastResult tick_count current_time out
  | ClockEntry.eff t :: rest, tick_count, current_time, lastResult, out =>
    if current_time < deadline then
      let result := callable_object tick_count
      let tc := tick_count + 1
      if isNotReady result then
        retryLoop callable_object deadline delay silent rest tc t (some result)
          (out ++ tickMark silent tc)
      else Except.ok (result, tc, current_time, out)
    else loopExit lastResult tick_count current_time out
  | ClockEntry.exn _ e :: _, tick_count, current_time, lastResult, out =>
    if current_time < deadline then
      let result := callable_object tick_count
      let tc := tick_count + 1
      if isNotReady result then Except.error (Exn.raised e)
      else Except.ok (result, tc, current_time, out)
    else loopExit lastResult tick_count current_time out

/-- The start-message output emitted at entry: present only when a non-empty
start message is configured and the session is not silent. -/
def startOutput (start_message : Option StartTemplate) (silent : Bool)
    (start_time : Int) : List OutEvent :=
  match start_message with
  | none => []
  | some tpl =>
    if tpl.isEmpty || silent then [] else print_start_message tpl start_time

/-- `f_retry`, the closure returned by `retry`: samples `start_time`, computes
`deadline = start_time + timeout`, announces the start message, runs the retry
loop, computes `total_time = current_time - start_time`, announces the end
message when not silent, and returns the result.  The final
`result.value.format(...)` call of the Python code discards its value, so it
has no observable effect on these templates. -/
def f_retry (callable_object : Nat → Result) (timeout delay : Int)
    (start_message : Option StartTemplate) (silent : Bool)
    (clockTimes : List ClockEntry) : Except Exn RunResult :=
  match StoppedClock.time clockTimes with
  | Except.error e => Except.error e
  | Except.ok (start_time, rest) =>
    let deadline := start_time + timeout
    let startOut := startOutput start_message silent start_time
    match retryLoop callable_object deadline delay silent rest 0 start_time none startOut with
    | Except.error e => Except.error e
    | Except.ok (result, tick_count, current_time, out) =>
      let total_time := current_time - start_time
      let endOut := if silent then [] else print_end_message result total_time tick_count
      Except.ok { result := result, attempts := tick_count, totalTime := total_time,
                  currentTime := current_time, output := out ++ endOut }

/-- `retry(callable_object, timeout, delay, start_message, silent)` returns the
`f_retry` closure. -/
def retry (callable_object : Nat → Result) (timeout delay : Int)
    (start_message : Option StartTemplate) (silent : Bool) :
    List ClockEntry → Except Exn RunResult :=
  f_retry callable_object timeout delay start_message silent

/-- `retry_decorator(timeout, delay, start_message, silent)` returns the
decorator `deco_retry`, which wraps `f` by calling `retry` with the captured
configuration. -/
def retry_decorator (timeout delay : Int) (start_message : Option StartTemplate)
    (silent : Bool) (f : Nat → Result) :
    List ClockEntry → Except Exn RunResult :=
  retry f timeout delay start_message silent

/-- Number of progress-marker (`.`) writes to standard output in a stream. -/
def dotCount : List OutEvent → Nat
  | [] => 0
  | OutEvent.out s :: rest => (if s = "." then 1 else 0) + dotCount rest
  | OutEvent.errc _ :: rest => dotCount rest

/-- Number of newline writes to standard output in a stream. -/
def nlCount : List OutEvent → Nat
  | [] => 0
  | OutEvent.out s :: rest => (if s = "\n" then 1 else 0) + nlCount rest
  | OutEvent.errc _ :: rest => nlCount rest

/-- The messages written to the error channel, in order. -/
def errMessages : List OutEvent → List String
  | [] => []
  | OutEvent.out _ :: rest => errMessages rest
  | OutEvent.errc s :: rest => s :: errMessages rest

/-- The progress output of `n` consecutive NotReady iterations whose
incremented tick counts are `a + 1, …, a + n`. -/
def marksSeg (silent : Bool) (a : Nat) : Nat → List OutEvent
  | 0 => []
  | n + 1 => tickMark silent (a + 1) ++ marksSeg silent (a + 1) n

/-- The NotReady payload template of the test suite's `check_value`:
`"Check still not ready after {total_time} seconds and {retries} retries"`. -/
def checkNotReadyTemplate : Template :=
  [Piece.lit "Check still not ready after ", Piece.total_time,
   Piece.lit " seconds and ", Piece.retries, Piece.lit " retries"]

/-- `check_value` applied to a holder whose value stays `False`: every
invocation returns NotReady. -/
def alwaysNotReady : Nat → Result :=
  fun _ => Result.NotReady (Payload.str checkNotReadyTemplate)

/-- The clock samples of `test_retry_fails_after_5_times`. -/
def fiveTimesClock : List ClockEntry :=
  [ClockEntry.val 200, ClockEntry.val 250, ClockEntry.val 300,
   ClockEntry.val 350, ClockEntry.val 500, ClockEntry.val 600]

/-- The observable outcome of the `test_retry_fails_after_5_times` scenario. -/
def fiveTimesRun : RunResult :=
  { result := Result.NotReady (Payload.str checkNotReadyTemplate)
    attempts := 4
    totalTime := 300
    currentTime := 500
    output := [OutEvent.out ".", OutEvent.out ".", OutEvent.out ".",
               OutEvent.out ".", OutEvent.out "\n",
               OutEvent.errc
                 "Check still not ready after 300 seconds and 4 retries  Giving up."] }

/-! ### Loop unfolding lemmas -/

theorem retryLoop_break (op : Nat → Result) (dl d : Int) (s : Bool)
    (cts : List ClockEntry) (tick : Nat) (cur : Int) (last : Option Result)
    (out : List OutEvent) (h1 : cur < dl) (h2 : isNotReady (op tick) = false) :
    retryLoop op dl d s cts tick cur last out =
      Except.ok (op tick, tick + 1, cur, out) := by
  cases cts with
  | nil => rw [retryLoop, if_pos h1]; simp [h2]
  | cons e rest => cases e <;> (rw [retryLoop, if_pos h1]; simp [h2])

theorem retryLoop_expired (op : Nat → Result) (dl d : Int) (s : Bool)
    (cts : List ClockEntry) (tick : Nat) (cur : Int) (last : Option Result)
    (out : List OutEvent) (h1 : ¬ cur < dl) :
    retryLoop op dl d s cts tick cur last out = loopExit last tick cur out := by
  cases cts with
  | nil => rw [retryLoop, if_neg h1]
  | cons e rest => cases e <;> rw [retryLoop, if_neg h1]

theorem retryLoop_step_val (op : Nat → Result) (dl d : Int) (s : Bool)
    (t : Int) (rest : List ClockEntry) (tick : Nat) (cur : Int)
    (last : Option Result) (out : List OutEvent)
    (h1 : cur < dl) (h2 : isNotReady (op tick) = true) :
    retryLoop op dl d s (ClockEntry.val t :: rest) tick cur last out =
      retryLoop op dl d s rest (tick + 1) t (some (op tick))
        (out ++ tickMark s (tick + 1)) := by
  rw [retryLoop, if_pos h1]
  simp [h2]

theorem retryLoop_step_eff (op : Nat → Result) (dl d : Int) (s : Bool)
    (t : Int) (rest : List ClockEntry) (tick : Nat) (cur : Int)
    (last : Option Result) (out : List OutEvent)
    (h1 : cur < dl) (h2 : isNotReady (op tick) = true) :
    retryLoop op dl d s (ClockEntry.eff t :: rest) tick cur last out =
      retryLoop op dl d s rest (tick + 1) t (some (op tick))
        (out ++ tickMark s (tick + 1)) := by
  rw [retryLoop, if_pos h1]
  simp [h2]

theorem retryLoop_raises (op : Nat → Result) (dl d : Int) (s : Bool)
    (t : Int) (e : Nat) (rest : List ClockEntry) (tick : Nat) (cur : Int)
    (last : Option Result) (out : List OutEvent)
    (h1 : cur < dl) (h2 : isNotReady (op tick) = true) :
    retryLoop op dl d s (ClockEntry.exn t e :: rest) tick cur last out =
      Except.error (Exn.raised e) := by
  rw [retryLoop, if_pos h1]
  simp [h2]

theorem retryLoop_exhausted (op : Nat → Result) (dl d : Int) (s : Bool)
    (tick : Nat) (cur : Int) (last : Option Result) (out : List OutEvent)
    (h1 : cur < dl) (h2 : isNotReady (op tick) = true) :
    retryLoop op dl d s [] tick cur last out =
      Except.error Exn.stopIteration := by
  rw [retryLoop, if_pos h1]
  simp [h2]

/-- Master characterization of a loop run that returns normally: either the
condition was false on entry and the supplied last result is returned
untouched, or at least one iteration ran, the returned result is the one the
last invocation produced, every earlier invocation returned NotReady, and the
loop either stopped at the deadline with a NotReady result (emitting one
progress mark per iteration) or broke on a non-NotReady result (emitting one
progress mark per earlier iteration). -/
theorem retryLoop_ok_spec (op : Nat → Result) (dl d : Int) (s : Bool) :
    ∀ (cts : List ClockEntry) (tick : Nat) (cur : Int) (last : Option Result)
      (out : List OutEvent) (r : Result) (tk : Nat) (cur2 : Int)
      (o : List OutEvent),
    retryLoop op dl d s cts tick cur last out = Except.ok (r, tk, cur2, o) →
    (tk = tick ∧ last = some r ∧ cur2 = cur ∧ o = out ∧ dl ≤ cur2)
    ∨ (tick < tk ∧ r = op (tk - 1) ∧
        (∀ i, tick ≤ i → i < tk - 1 → isNotReady (op i) = true) ∧
        ((dl ≤ cur2 ∧ isNotReady r = true ∧
            o = out ++ marksSeg s tick (tk - tick))
         ∨ (cur2 < dl ∧ isNotReady r = false ∧
            o = out ++ marksSeg s tick (tk - 1 - tick)))) := by
  intro cts
  induction cts with
  | nil =>
    intro tick cur last out r tk cur2 o h
    by_cases h1 : cur < dl
    · cases h2 : isNotReady (op tick) with
      | true => rw [retryLoop_exhausted op dl d s tick cur last out h1 h2] at h; exact absurd h (by simp)
      | false =>
        rw [retryLoop_break op dl d s [] tick cur last out h1 h2] at h
        simp only [Except.ok.injEq, Prod.mk.injEq] at h
        obtain ⟨hr, htk, hcur, ho⟩ := h
        refine Or.inr ⟨by omega, ?_, ?_, Or.inr ⟨by omega, ?_, ?_⟩⟩
        · rw [← hr]; congr 1; omega
        · intro i hi1 hi2; omega
        · rw [← hr]; exact h2
        · rw [← ho]; have : tk - 1 - tick = 0 := by omega
          rw [this]; simp [marksSeg]
    · rw [retryLoop_expired op dl d s [] tick cur last out h1] at h
      cases last with
      | none => exact absurd h (by simp [loopExit])
      | some r0 =>
        simp only [loopExit, Except.ok.injEq, Prod.mk.injEq] at h
        obtain ⟨hr, htk, hcur, ho⟩ := h
        exact Or.inl ⟨htk.symm, by rw [hr], hcur.symm, ho.symm, by omega⟩
  | cons e rest ih =>
    intro tick cur last out r tk cur2 o h
    by_cases h1 : cur < dl
    · cases h2 : isNotReady (op tick) with
      | false =>
        rw [retryLoop_break op dl d s (e :: rest) tick cur last out h1 h2] at h
        simp only [Except.ok.injEq, Prod.mk.injEq] at h
        obtain ⟨hr, htk, hcur, ho⟩ := h
        refine Or.inr ⟨by omega, ?_, ?_, Or.inr ⟨by omega, ?_, ?_⟩⟩
        · rw [← hr]; congr 1; omega
        · intro i hi1 hi2; omega
        · rw [← hr]; exact h2
        · rw [← ho]; have : tk - 1 - tick = 0 := by omega
          rw [this]; simp [marksSeg]
      | true =>
        cases e with
        | exn t ex =>
          rw [retryLoop_raises op dl d s t ex rest tick cur last out h1 h2] at h
          exact absurd h (by simp)
        | val t =>
          rw [retryLoop_step_val op dl d s t rest tick cur last out h1 h2] at h
          rcases ih (tick + 1) t (some (op tick)) (out ++ tickMark s (tick + 1))
              r tk cur2 o h with
            ⟨htk, hlast, hcur, ho, hdl⟩ | ⟨hlt, hr, hall, hbr⟩
          · simp only [Option.some.injEq] at hlast
            refine Or.inr ⟨by omega, ?_, ?_, Or.inl ⟨hdl, ?_, ?_⟩⟩
            · rw [← hlast]; congr 1; omega
            · intro i hi1 hi2; omega
            · rw [← hlast]; exact h2
            · rw [ho]; have : tk - tick = 1 := by omega
              rw [this]; simp [marksSeg]
          · refine Or.inr ⟨by omega, hr, ?_, ?_⟩
            · intro i hi1 hi2
              rcases Nat.eq_or_lt_of_le hi1 with hi | hi
              · rw [← hi]; exact h2
              · exact hall i hi (by omega)
            rcases hbr with ⟨hdl, hnr, ho⟩ | ⟨hdl, hnr, ho⟩
            · refine Or.inl ⟨hdl, hnr, ?_⟩
              rw [ho]; have : tk - tick = (tk - (tick + 1)) + 1 := by omega
              rw [this, marksSeg, List.append_assoc]
            · refine Or.inr ⟨hdl, hnr, ?_⟩
              rw [ho]; have : tk - 1 - tick = (tk - 1 - (tick + 1)) + 1 := by omega
              rw [this, marksSeg, List.append_assoc]
        | eff t =>
          rw [retryLoop_step_eff op dl d s t rest tick cur last out h1 h2] at h
          rcases ih (tick + 1) t (some (op tick)) (out ++ tickMark s (tick + 1))
              r tk cur2 o h with
            ⟨htk, hlast, hcur, ho, hdl⟩ | ⟨hlt, hr, hall, hbr⟩
          · simp only [Option.some.injEq] at hlast
            refine Or.inr ⟨by omega, ?_, ?_, Or.inl ⟨hdl, ?_, ?_⟩⟩
            · rw [← hlast]; congr 1; omega
            · intro i hi1 hi2; omega
            · rw [← hlast]; exact h2
            · rw [ho]; have : tk - tick = 1 := by omega
              rw [this]; simp [marksSeg]
          · refine Or.inr ⟨by omega, hr, ?_, ?_⟩
            · intro i hi1 hi2
              rcases Nat.eq_or_lt_of_le hi1 with hi | hi
              · rw [← hi]; exact h2
              · exact hall i hi (by omega)
            rcases hbr with ⟨hdl, hnr, ho⟩ | ⟨hdl, hnr, ho⟩
            · refine Or.inl ⟨hdl, hnr, ?_⟩
              rw [ho]; have : tk - tick = (tk - (tick + 1)) + 1 := by omega
              rw [this, marksSeg, List.append_assoc]
            · refine Or.inr ⟨hdl, hnr, ?_⟩
              rw [ho]; have : tk - 1 - tick = (tk - 1 - (tick + 1)) + 1 := by omega
              rw [this, marksSeg, List.append_assoc]
    · rw [retryLoop_expired op dl d s (e :: rest) tick cur last out h1] at h
      cases last with
      | none => exact absurd h (by simp [loopExit])
      | some r0 =>
        simp only [loopExit, Except.ok.injEq, Prod.mk.injEq] at h
        obtain ⟨hr, htk, hcur, ho⟩ := h
        exact Or.inl ⟨htk.symm, by rw [hr], hcur.symm, ho.symm, by omega⟩

/-! ### Counting the progress markers -/

theorem dotCount_append (a b : List OutEvent) :
    dotCount (a ++ b) = dotCount a + dotCount b := by
  induction a with
  | nil => simp [dotCount]
  | cons ev rest ih =>
    cases ev with
    | out s2 => simp [dotCount, ih]; omega
    | errc s2 => simp [dotCount, ih]

theorem nlCount_append (a b : List OutEvent) :
    nlCount (a ++ b) = nlCount a + nlCount b := by
  induction a with
  | nil => simp [nlCount]
  | cons ev rest ih =>
    cases ev with
    | out s2 => simp [nlCount, ih]; omega
    | errc s2 => simp [nlCount, ih]

theorem dotCount_tickMark (t : Nat) : dotCount (tickMark false t) = 1 := by
  cases h : (t % 80 == 0) <;> simp [tickMark, h, dotCount]

theorem nlCount_tickMark (t : Nat) :
    nlCount (tickMark false t) = if t % 80 = 0 then 1 else 0 := by
  cases h : (t % 80 == 0) <;>
    simp_all [tickMark, nlCount]

theorem dotCount_marksSeg (n : Nat) : ∀ a, dotCount (marksSeg false a n) = n := by
  induction n with
  | zero => intro a; simp [marksSeg, dotCount]
  | succ m ih =>
    intro a
    rw [marksSeg, dotCount_append, dotCount_tickMark, ih]
    omega

theorem nlCount_marksSeg (n : Nat) :
    ∀ a, nlCount (marksSeg false a n) = (a + n) / 80 - a / 80 := by
  induction n with
  | zero => intro a; simp [marksSeg, nlCount]
  | succ m ih =>
    intro a
    rw [marksSeg, nlCount_append, nlCount_tickMark, ih]
    split_ifs with h <;> omega

/-! ### Observable outcome of a normally returning call -/

/-- Every `Except.ok` outcome of `f_retry` satisfies: at least one attempt was
made; the returned result is the one produced by the last invocation; the
reported total time is the difference between the final clock sample and the
start sample; the stream output is the start message, then one progress mark
per NotReady invocation, then the end message; and either the loop stopped at
the deadline on a NotReady result with every invocation NotReady, or it broke
before the deadline on a non-NotReady result with every earlier invocation
NotReady. -/
theorem f_retry_ok_spec (op : Nat → Result) (tmo dly : Int)
    (sm : Option StartTemplate) (s : Bool) (start : Int)
    (rest : List ClockEntry) (rr : RunResult)
    (h : f_retry op tmo dly sm s (ClockEntry.val start :: rest) = Except.ok rr) :
    1 ≤ rr.attempts ∧ rr.result = op (rr.attempts - 1) ∧
    rr.totalTime = rr.currentTime - start ∧
    rr.output = (startOutput sm s start ++
        (if start + tmo ≤ rr.currentTime then marksSeg s 0 rr.attempts
         else marksSeg s 0 (rr.attempts - 1))) ++
      (if s then [] else print_end_message rr.result rr.totalTime rr.attempts) ∧
    ((start + tmo ≤ rr.currentTime ∧ isNotReady rr.result = true ∧
        ∀ i, i < rr.attempts → isNotReady (op i) = true)
     ∨ (rr.currentTime < start + tmo ∧ isNotReady rr.result = false ∧
        ∀ i, i < rr.attempts - 1 → isNotReady (op i) = true)) := by
  unfold f_retry at h
  simp only [StoppedClock.time] at h
  cases hloop : retryLoop op (start + tmo) dly s rest 0 start none
      (startOutput sm s start) with
  | error e => rw [hloop] at h; exact absurd h (by simp)
  | ok res =>
    obtain ⟨r, tk, cur, o⟩ := res
    rw [hloop] at h
    simp only [Except.ok.injEq] at h
    subst h
    dsimp only
    rcases retryLoop_ok_spec op (start + tmo) dly s rest 0 start none
        (startOutput sm s start) r tk cur o hloop with
      ⟨_, hlast, _, _, _⟩ | ⟨hlt, hr, hall, hbr⟩
    · exact absurd hlast (by simp)
    · rcases hbr with ⟨hdl, hnr, ho⟩ | ⟨hdl, hnr, ho⟩
      · refine ⟨by omega, hr, rfl, ?_, Or.inl ⟨hdl, hnr, ?_⟩⟩
        · show o ++ _ = _
          rw [if_pos hdl, ho]
          simp
        · intro i hi
          rcases Nat.lt_or_ge i (tk - 1) with hi2 | hi2
          · exact hall i (by omega) hi2
          · have : i = tk - 1 := by omega
            rw [this, ← hr]; exact hnr
      · refine ⟨by omega, hr, rfl, ?_, Or.inr ⟨by omega, hnr, ?_⟩⟩
        · show o ++ _ = _
          rw [ho, if_neg (show ¬ start + tmo ≤ cur from by omega)]
          simp
        · intro i hi
          exact hall i (by omega) hi

/-! ### The claims -/

/-- C1: For every configuration (timeout, delay, start_message, silent) with
startTime < deadline, if the wrapped operation returns Success or plain
Failure on the first attempt, the retry engine invokes the operation exactly
once and returns that very result unchanged — same variant and same message
payload — to the caller. -/
theorem claim_C1 (op : Nat → Result) (tmo dly : Int) (sm : Option StartTemplate)
    (s : Bool) (start : Int) (rest : List ClockEntry)
    (h1 : start < start + tmo)
    (h2 : (∃ v, op 0 = Result.Success v) ∨ ∃ v, op 0 = Result.Failure v) :
    ∃ rr, f_retry op tmo dly sm s (ClockEntry.val start :: rest) =
        Except.ok rr ∧ rr.result = op 0 ∧ rr.attempts = 1 := by
  have hnr : isNotReady (op 0) = false := by
    rcases h2 with ⟨v, hv⟩ | ⟨v, hv⟩ <;> rw [hv] <;> rfl
  unfold f_retry
  simp only [StoppedClock.time]
  rw [retryLoop_break op (start + tmo) dly s rest 0 start none _ h1 hnr]
  exact ⟨_, rfl, rfl, rfl⟩

theorem claim_C1_witness :
    ((0 : Int) < 0 + 10) ∧
    ∃ rr, f_retry (fun _ => Result.Success Payload.other) 10 4 none false
        [ClockEntry.val 0] = Except.ok rr ∧
      rr.result = (fun _ => Result.Success Payload.other) 0 ∧
      rr.attempts = 1 :=
  ⟨by decide,
   claim_C1 (fun _ => Result.Success Payload.other) 10 4 none false 0 []
     (by decide) (Or.inl ⟨Payload.other, rfl⟩)⟩

/-- C2: When a run returns normally and the final clock sample has reached the
deadline — the loop exited because `currentTime >= deadline` rather than via a
break, which by `retryLoop`'s shape is checked before each attempt on the
sample taken after the previous sleep — the returned result is the NotReady
obtained from the last invocation performed, every invocation returned
NotReady, and no attempt beyond `attempts` was made. -/
theorem claim_C2 (op : Nat → Result) (tmo dly : Int) (sm : Option StartTemplate)
    (s : Bool) (start : Int) (rest : List ClockEntry) (rr : RunResult)
    (h : f_retry op tmo dly sm s (ClockEntry.val start :: rest) = Except.ok rr)
    (hd : start + tmo ≤ rr.currentTime) :
    isNotReady rr.result = true ∧ 1 ≤ rr.attempts ∧
    rr.result = op (rr.attempts - 1) ∧
    ∀ i, i < rr.attempts → isNotReady (op i) = true := by
  obtain ⟨h1, h2, _, _, h5⟩ := f_retry_ok_spec op tmo dly sm s start rest rr h
  rcases h5 with ⟨_, hnr, hall⟩ | ⟨hlt, _, _⟩
  · exact ⟨hnr, h1, h2, hall⟩
  · omega

theorem claim_C2_witness :
    isNotReady fiveTimesRun.result = true ∧
    fiveTimesRun.result = alwaysNotReady (fiveTimesRun.attempts - 1) :=
  let h := claim_C2 alwaysNotReady 200 4 none false 200
    [ClockEntry.val 250, ClockEntry.val 300, ClockEntry.val 350,
     ClockEntry.val 500, ClockEntry.val 600] fiveTimesRun rfl (by decide)
  ⟨h.1, h.2.2.1⟩

/-- C3 counterexample: with timeout 0 the deadline equals the start sample, so
`currentTime < deadline` is already false at entry; contrary to the claim the
engine invokes the operation zero times and produces no result — it raises
Python's `UnboundLocalError` when `result` is read after the loop. -/
theorem claim_C3_counterexample :
    f_retry (fun _ => Result.Success Payload.other) 0 4 none false
      [ClockEntry.val 200, ClockEntry.val 300] =
      Except.error Exn.unboundLocal := rfl

/-- C3 (amended): If timeout is so small that `currentTime < deadline` is
already false at entry, the engine never invokes the wrapped operation and
produces no result: the `while` condition is checked before the first
iteration begins, so reading `result` after the loop raises
`UnboundLocalError`, which propagates to the caller. -/
theorem claim_C3_amended (op : Nat → Result) (tmo dly : Int)
    (sm : Option StartTemplate) (s : Bool) (start : Int)
    (rest : List ClockEntry) (h : ¬ start < start + tmo) :
    f_retry op tmo dly sm s (ClockEntry.val start :: rest) =
      Except.error Exn.unboundLocal := by
  unfold f_retry
  simp only [StoppedClock.time]
  rw [retryLoop_expired op (start + tmo) dly s rest 0 start none _ h]
  rfl

theorem claim_C3_amended_witness :
    (¬ (200 : Int) < 200 + 0) ∧
    f_retry alwaysNotReady 0 4 none false [ClockEntry.val 200] =
      Except.error Exn.unboundLocal :=
  ⟨by decide, claim_C3_amended alwaysNotReady 0 4 none false 200 [] (by decide)⟩

/-- C4: In every normally returning non-silent run, the attempt count reported
in the end message equals the number of invocations performed — the counter
starts at 0, is incremented once per invocation, and indexes the last
invocation as `attempts - 1` — and the reported `totalTime` is
`currentTime - startTime`, both clock samples. -/
theorem claim_C4 (op : Nat → Result) (tmo dly : Int) (sm : Option StartTemplate)
    (start : Int) (rest : List ClockEntry) (rr : RunResult)
    (h : f_retry op tmo dly sm false (ClockEntry.val start :: rest) =
      Except.ok rr) :
    1 ≤ rr.attempts ∧ rr.result = op (rr.attempts - 1) ∧
    rr.totalTime = rr.currentTime - start ∧
    ∃ pre, rr.output =
      pre ++ print_end_message rr.result rr.totalTime rr.attempts := by
  obtain ⟨h1, h2, h3, h4, _⟩ := f_retry_ok_spec op tmo dly sm false start rest rr h
  refine ⟨h1, h2, h3,
    ⟨startOutput sm false start ++
      (if start + tmo ≤ rr.currentTime then marksSeg false 0 rr.attempts
       else marksSeg false 0 (rr.attempts - 1)), ?_⟩⟩
  rw [h4]
  simp

theorem claim_C4_witness :
    fiveTimesRun.totalTime = fiveTimesRun.currentTime - 200 ∧
    ∃ pre, fiveTimesRun.output = pre ++
      print_end_message fiveTimesRun.result fiveTimesRun.totalTime
        fiveTimesRun.attempts :=
  let h := claim_C4 alwaysNotReady 200 4 none 200
    [ClockEntry.val 250, ClockEntry.val 300, ClockEntry.val 350,
     ClockEntry.val 500, ClockEntry.val 600] fiveTimesRun rfl
  ⟨h.2.2.1, h.2.2.2⟩

/-- C5: With clock samples [200, 250, 300, 350, 500, 600], timeout 200, and an
operation that always returns NotReady, the engine returns a NotReady result,
the attempt count is 4, totalTime is 300, exactly 4 progress markers go to
standard output, and the end message on the error channel ends with
"Giving up.". -/
theorem claim_C5 :
    f_retry alwaysNotReady 200 4 none false fiveTimesClock =
      Except.ok fiveTimesRun ∧
    isNotReady fiveTimesRun.result = true ∧
    fiveTimesRun.attempts = 4 ∧
    fiveTimesRun.totalTime = 300 ∧
    dotCount fiveTimesRun.output = 4 ∧
    errMessages fiveTimesRun.output =
      ["Check still not ready after 300 seconds and 4 retries  Giving up."] ∧
    errMessages fiveTimesRun.output =
      ["Check still not ready after 300 seconds and 4 retries" ++
        "  Giving up."] :=
  ⟨rfl, rfl, rfl, rfl, rfl, rfl, rfl⟩

/-- C6: In every normally returning non-silent run there is an N — the number
of NotReady results obtained, equal to the attempt count on deadline expiry
and one less on a break — such that the stream output is the start message,
then exactly the marker block `marksSeg false 0 N`, then the end message; that
block contains exactly N markers and a line break after every 80th marker,
counted cumulatively over the session (N / 80 breaks in total). -/
theorem claim_C6 (op : Nat → Result) (tmo dly : Int) (sm : Option StartTemplate)
    (start : Int) (rest : List ClockEntry) (rr : RunResult)
    (h : f_retry op tmo dly sm false (ClockEntry.val start :: rest) =
      Except.ok rr) :
    ∃ N, (∀ i, i < N → isNotReady (op i) = true) ∧
      (N = rr.attempts ∨ N + 1 = rr.attempts) ∧
      rr.output = (startOutput sm false start ++ marksSeg false 0 N) ++
        print_end_message rr.result rr.totalTime rr.attempts ∧
      dotCount (marksSeg false 0 N) = N ∧
      nlCount (marksSeg false 0 N) = N / 80 := by
  obtain ⟨h1, _, _, h4, h5⟩ := f_retry_ok_spec op tmo dly sm false start rest rr h
  rcases h5 with ⟨hdl, _, hall⟩ | ⟨hdl, _, hall⟩
  · refine ⟨rr.attempts, hall, Or.inl rfl, ?_, dotCount_marksSeg _ 0, ?_⟩
    · rw [h4, if_pos hdl]; simp
    · rw [nlCount_marksSeg]; omega
  · refine ⟨rr.attempts - 1, hall, Or.inr (by omega), ?_, dotCount_marksSeg _ 0, ?_⟩
    · rw [h4, if_neg (show ¬ start + tmo ≤ rr.currentTime from by omega)]; simp
    · rw [nlCount_marksSeg]; omega

theorem claim_C6_witness :
    ∃ N, (∀ i, i < N → isNotReady (alwaysNotReady i) = true) ∧
      (N = fiveTimesRun.attempts ∨ N + 1 = fiveTimesRun.attempts) ∧
      fiveTimesRun.output =
        (startOutput none false 200 ++ marksSeg false 0 N) ++
          print_end_message fiveTimesRun.result fiveTimesRun.totalTime
            fiveTimesRun.attempts ∧
      dotCount (marksSeg false 0 N) = N ∧
      nlCount (marksSeg false 0 N) = N / 80 :=
  claim_C6 alwaysNotReady 200 4 none 200
    [ClockEntry.val 250, ClockEntry.val 300, ClockEntry.val 350,
     ClockEntry.val 500, ClockEntry.val 600] fiveTimesRun rfl

/-- C7: `print_end_message` first emits a line break; then, for a formattable
payload, a Success payload is formatted with the placeholders and printed to
standard output, a NotReady payload is formatted the same way with the literal
suffix "  Giving up." appended and printed to the error channel, and a plain
Failure payload is formatted and printed to the error channel with no suffix;
for a non-formattable payload no end message is emitted and no error is
raised. -/
theorem claim_C7 (tpl : Template) (tt : Int) (rc : Nat) :
    print_end_message (Result.Success (Payload.str tpl)) tt rc =
      [OutEvent.out "\n", OutEvent.out (formatTemplate tpl tt rc)] ∧
    print_end_message (Result.NotReady (Payload.str tpl)) tt rc =
      [OutEvent.out "\n",
       OutEvent.errc (formatTemplate tpl tt rc ++ "  Giving up.")] ∧
    print_end_message (Result.Failure (Payload.str tpl)) tt rc =
      [OutEvent.out "\n", OutEvent.errc (formatTemplate tpl tt rc)] ∧
    print_end_message (Result.Success Payload.other) tt rc =
      [OutEvent.out "\n"] ∧
    print_end_message (Result.Failure Payload.other) tt rc =
      [OutEvent.out "\n"] ∧
    print_end_message (Result.NotReady Payload.other) tt rc =
      [OutEvent.out "\n"] :=
  ⟨rfl, rfl, rfl, rfl, rfl, rfl⟩

/-- C8: An error raised by the clock while sampling time — at session start,
inside the loop after a sleep, or anywhere the loop would sample — is not
caught by the retry engine: it propagates to the caller and no final Result is
produced. -/
theorem claim_C8 (op : Nat → Result) (tmo dly : Int) (sm : Option StartTemplate)
    (s : Bool) (e : Nat) :
    (∀ t rest, f_retry op tmo dly sm s (ClockEntry.exn t e :: rest) =
      Except.error (Exn.raised e)) ∧
    (∀ start t rest, start < start + tmo → isNotReady (op 0) = true →
      f_retry op tmo dly sm s
          (ClockEntry.val start :: ClockEntry.exn t e :: rest) =
        Except.error (Exn.raised e)) ∧
    (∀ dl t rest tick cur last out, cur < dl → isNotReady (op tick) = true →
      retryLoop op dl dly s (ClockEntry.exn t e :: rest) tick cur last out =
        Except.error (Exn.raised e)) := by
  refine ⟨fun t rest => rfl, ?_, ?_⟩
  · intro start t rest h1 h2
    unfold f_retry
    simp only [StoppedClock.time]
    rw [retryLoop_raises op (start + tmo) dly s t e rest 0 start none _ h1 h2]
  · intro dl t rest tick cur last out h1 h2
    exact retryLoop_raises op dl dly s t e rest tick cur last out h1 h2

theorem claim_C8_witness :
    f_retry alwaysNotReady 200 4 none false [ClockEntry.exn 0 7] =
      Except.error (Exn.raised 7) ∧
    f_retry alwaysNotReady 200 4 none false
      [ClockEntry.val 200, ClockEntry.exn 0 7] = Except.error (Exn.raised 7) ∧
    retryLoop alwaysNotReady 400 4 false [ClockEntry.exn 0 7] 0 200 none [] =
      Except.error (Exn.raised 7) :=
  ⟨(claim_C8 alwaysNotReady 200 4 none false 7).1 0 [],
   (claim_C8 alwaysNotReady 200 4 none false 7).2.1 200 0 [] (by decide) rfl,
   (claim_C8 alwaysNotReady 200 4 none false 7).2.2 400 0 [] 0 200 none []
     (by decide) rfl⟩

/-- C9: A NotReady value is classified as a Failure (`isinstance` against
Failure is true) and is not a Success; `succeeded` is true exactly for the
Success variant; and the loop distinguishes the two by the NotReady tag — it
stops (breaks) on a plain Failure and retries (recurses after the sleep and
resample) on NotReady. -/
theorem claim_C9 (m : Payload) :
    isFailureInstance (Result.NotReady m) = true ∧
    succeeded (Result.NotReady m) = false ∧
    (∀ r, succeeded r = true ↔ ∃ v, r = Result.Success v) ∧
    (∀ op dl d s cts tick cur last out, cur < dl →
      op tick = Result.Failure m →
      retryLoop op dl d s cts tick cur last out =
        Except.ok (Result.Failure m, tick + 1, cur, out)) ∧
    (∀ op dl d s t rest tick cur last out, cur < dl →
      op tick = Result.NotReady m →
      retryLoop op dl d s (ClockEntry.val t :: rest) tick cur last out =
        retryLoop op dl d s rest (tick + 1) t (some (Result.NotReady m))
          (out ++ tickMark s (tick + 1))) := by
  refine ⟨rfl, rfl, ?_, ?_, ?_⟩
  · intro r
    cases r with
    | Success v => simp [succeeded]
    | Failure v => simp [succeeded]
    | NotReady v => simp [succeeded]
  · intro op dl d s cts tick cur last out h1 h2
    have hb := retryLoop_break op dl d s cts tick cur last out h1 (by rw [h2]; rfl)
    rw [hb, h2]
  · intro op dl d s t rest tick cur last out h1 h2
    have hs := retryLoop_step_val op dl d s t rest tick cur last out h1
      (by rw [h2]; rfl)
    rw [hs, h2]

theorem claim_C9_witness :
    isFailureInstance (Result.NotReady Payload.other) = true ∧
    succeeded (Result.NotReady Payload.other) = false ∧
    retryLoop (fun _ => Result.Failure Payload.other) 10 4 false [] 0 0 none [] =
      Except.ok (Result.Failure Payload.other, 1, 0, []) :=
  ⟨(claim_C9 Payload.other).1, (claim_C9 Payload.other).2.1,
   (claim_C9 Payload.other).2.2.2.1 (fun _ => Result.Failure Payload.other)
     10 4 false [] 0 0 none [] (by decide) rfl⟩

/-- C10: The wrapped callable produced by
`retry_decorator(timeout, delay, start_message, silent)` applied to `f` is the
very callable produced by `retry(f, timeout, delay, start_message, silent)`:
same returned Result, same attempt sequence, same output on every clock. -/
theorem claim_C10 (tmo dly : Int) (sm : Option StartTemplate) (s : Bool)
    (f : Nat → Result) :
    retry_decorator tmo dly sm s f = retry f tmo dly sm s := rfl

end Smonad
